import Mathlib

/-!
Shallow embedding of the honeycomb hex construction core (`src/hex/index.js`)
and the coordinate methods its prototype provides.

JS numbers are modelled as exact rationals together with the distinguished
IEEE negative zero (`JSNum.negZero`); floating-point rounding is out of scope,
but signed zero is tracked faithfully because the code normalizes it.
Object identity is modelled with a fresh-id allocator (`fresh : Nat`): every
call of the constructor builds an object whose id is the fresh id, and two
objects are the same JS object exactly when their ids coincide.  Mutation of
the caller's argument object (the `Object.assign(customProps, { x, y })` in
the source) is made explicit: the constructor returns both the built hex and
the final state of its custom-properties argument.
-/

namespace Honeycomb

/-- A JS number as used by the hex core: an exact rational value, plus the
distinguished IEEE negative zero.  `num 0` is positive zero. -/
inductive JSNum : Type
  | num (q : ℚ)
  | negZero
  deriving DecidableEq

/-- The numeric value a JS number compares equal to (`-0` reads back as `0`). -/
def JSNum.toQ : JSNum → ℚ
  | .num q => q
  | .negZero => 0

/-- IEEE addition on the modelled values: `-0 + -0 = -0`, a zero added to a
value leaves it, and two ordinary values add exactly (the sum of two ordinary
values is `+0` when it is zero, as in IEEE round-to-nearest). -/
def jsAdd : JSNum → JSNum → JSNum
  | .negZero, .negZero => .negZero
  | .negZero, .num b => .num b
  | .num a, .negZero => .num a
  | .num a, .num b => .num (a + b)

/-- IEEE negation: `-(+0) = -0`, `-(-0) = +0`, and sign flip otherwise. -/
def jsNeg : JSNum → JSNum
  | .negZero => .num 0
  | .num a => if a = 0 then .negZero else .num (-a)

/-- IEEE subtraction `a - b`, which is exactly `a + (-b)`. -/
def jsSub (a b : JSNum) : JSNum := jsAdd a (jsNeg b)

/-- Modelled from the spec: `unsignNegativeZero` lives in `src/utils`, which is
not among the sources; the spec describes it as the numeric normalization
helper that "removes signed-zero artifacts": any coordinate that would
otherwise be `-0` is normalized to `0`. -/
def unsignNegativeZero : JSNum → JSNum
  | .negZero => .num 0
  | v => v

/-- Modelled from the spec: the body of `thirdCoordinateFactory`
(`src/hex/statics.js`) is not among the sources; spec §4.2 step 6 says the
third coordinate is `z = -(x + y)`, negative-zero-normalized. -/
def thirdCoordinate (x y : JSNum) : JSNum :=
  unsignNegativeZero (jsNeg (jsAdd x y))

/-- Custom properties of an object, as an association list from field names to
(numeric) values.  Only the names used for custom fields appear here; the
coordinate fields `x`, `y`, `z` are modelled separately. -/
abbrev Props := List (String × JSNum)

/-- A plain JS object as the constructor sees it: optional numeric `x`, `y`
fields (a field that is absent or holds a non-number is `none`, since the
constructor's `isNumber` filter treats both alike), an optional explicit `z`
field, further custom fields, and an identity. -/
structure JSObj : Type where
  id : Nat
  x : Option JSNum
  y : Option JSNum
  z : Option JSNum
  props : Props
  deriving DecidableEq

/-- A materialized hex: identity, the shared prototype it was built over
(carrying the factory-level custom properties), its two stored cube
coordinates, and its instance-level custom properties. -/
structure Hex : Type where
  id : Nat
  proto : Props
  x : JSNum
  y : JSNum
  props : Props
  deriving DecidableEq

/-- Modelled from the spec: the third cube coordinate of a hex.  The
constructor in `src/hex/index.js` stores only `x` and `y`; spec §4.2 says `z`
is always re-derived by the resolver as `-(x + y)`, negative-zero-normalized
(the prototype module `src/hex/prototype.js` that realizes this is not among
the sources). -/
def Hex.z (h : Hex) : JSNum := thirdCoordinate h.x h.y

/-- The coordinate snapshot `coordinates()` returns: the numeric values of
`x`, `y` and the derived `z`. -/
def Hex.coords (h : Hex) : ℚ × ℚ × ℚ := (h.x.toQ, h.y.toQ, h.z.toQ)

/-- The first positional argument of the constructor: `undefined` (or any
non-number, non-object, non-array scalar, which `isNumber`/`isObject`/
`isArray` all reject), a number, an array (its first two destructured
entries), or an object. -/
inductive HexArg : Type
  | undef
  | numV (n : JSNum)
  | arrV (a b : Option JSNum)
  | objV (o : JSObj)
  deriving DecidableEq

/-- The `customProps` argument: the defaulted fresh `{}`, a primitive number
(as in `Hex(1, 2, 5)`, where `Object.assign` boxes it into a wrapper with no
observable aliasing), or a caller-supplied object (which `Object.assign`
mutates in place). -/
inductive CProps : Type
  | emptyO
  | numP (n : JSNum)
  | objP (o : JSObj)
  deriving DecidableEq

/-- The own enumerable custom fields `Object.assign` copies from the
`customProps` argument into the result (spec §4.2 step 7 / §6: custom
properties are merged minus the coordinates; a primitive contributes none). -/
def CProps.propsOf : CProps → Props
  | .objP o => o.props
  | _ => []

/-- The in-place `Object.assign(customProps, { x, y })` of the source: when
`customProps` is a caller-visible object its `x` and `y` fields are
overwritten with the computed coordinates; the fresh `{}` and the primitive
wrapper have no caller-visible alias, so they are returned unchanged. -/
def CProps.assignXY : CProps → JSNum → JSNum → CProps
  | .objP o, x, y => .objP { o with x := some x, y := some y }
  | c, _, _ => c

/-- Lines 154-165 of `src/hex/index.js`: both extracted values are passed
through `unsignNegativeZero`, then the `switch` on how many of them are
numbers keeps both, copies the present one onto the missing one, or zeroes
both. -/
def inferXY (x0 y0 : Option JSNum) : JSNum × JSNum :=
  match x0.map unsignNegativeZero, y0.map unsignNegativeZero with
  | some a, some b => (a, b)
  | some a, none => (a, a)
  | none, some b => (b, b)
  | none, none => (.num 0, .num 0)

/-- The tail of the constructor after input-shape dispatch: coordinate
inference, the mutating `Object.assign(customProps, { x, y })`, and the final
`Object.assign(Object.create(finalPrototype), this, ...)` building a fresh
object (`this` is `undefined` in plain calls and contributes nothing).
Returns the built hex and the final state of the `customProps` argument. -/
def hexCore (proto : Props) (x0 y0 : Option JSNum) (cp : CProps) (fresh : Nat) :
    Hex × CProps :=
  let xy := inferXY x0 y0
  ({ id := fresh, proto := proto, x := xy.1, y := xy.2, props := cp.propsOf },
    cp.assignXY xy.1 xy.2)

/-- The bound constructor `Hex(xOrProps, y, customProps = {})` of
`src/hex/index.js` lines 138-174: an object argument has its `x`, `y`
extracted and is itself passed on as the `customProps` (the recursion
`return Hex(x, y, xOrProps)` inlined); an array argument yields its first two
entries for both coordinates (the destructuring `[x, y] = xOrProps`
overwrites the positional `y`) and resets `customProps` to a fresh `{}`;
otherwise the argument is `x` as-is. -/
def Hex.construct (proto : Props) (xOrProps : HexArg) (y : Option JSNum)
    (cp : CProps) (fresh : Nat) : Hex × CProps :=
  match xOrProps with
  | .objV o => hexCore proto o.x o.y (.objP o) fresh
  | .arrV a b => hexCore proto a b .emptyO fresh
  | .numV n => hexCore proto (some n) y cp fresh
  | .undef => hexCore proto none y cp fresh

/-- The view of an existing hex as the object the constructor receives when
the hex is passed back in: its `x` and `y` fields hold its stored
coordinates, it has no own `z` field (`z` is derived on the prototype), and
it carries its instance custom properties. -/
def Hex.toObj (h : Hex) : JSObj :=
  { id := h.id, x := some h.x, y := some h.y, z := none, props := h.props }

/-- Rounding as JS `Math.round`: to the nearest integer, halves toward
positive infinity. -/
def roundHalfUp (q : ℚ) : ℤ := ⌊q + 1 / 2⌋

/-- Modelled from the spec: the pure part of cube rounding (`roundFactory` in
`src/hex/prototype.js`, not among the sources).  Spec §4.4: round each
coordinate to the nearest integer, compute the rounding deltas, and correct
whichever coordinate had the largest absolute delta by recomputing it as the
negative sum of the other two rounded coordinates.  Only the final `x`, `y`
are returned: the constructor the result is fed through re-derives `z`,
consistently, since the corrected triple sums to zero. -/
def cubeRound (x y z : ℚ) : ℤ × ℤ :=
  let rx := roundHalfUp x
  let ry := roundHalfUp y
  let rz := roundHalfUp z
  let dx := |x - (rx : ℚ)|
  let dy := |y - (ry : ℚ)|
  let dz := |z - (rz : ℚ)|
  if dy < dx ∧ dz < dx then (-(ry + rz), ry)
  else if dz < dy then (rx, -(rx + rz))
  else (rx, ry)

/-- Modelled from the spec: `round()` (`roundFactory` in
`src/hex/prototype.js`, not among the sources) applies cube rounding to the
receiver's coordinates and builds the result via the same bound
constructor. -/
def Hex.round (h : Hex) (fresh : Nat) : Hex :=
  let r := cubeRound h.x.toQ h.y.toQ h.z.toQ
  (Hex.construct h.proto (.numV (.num (r.1 : ℚ))) (some (.num (r.2 : ℚ)))
    .emptyO fresh).1

/-- Modelled from the spec: `add(other)` (`addFactory` in
`src/hex/prototype.js`, not among the sources) — component-wise
cube-coordinate addition, the result constructed via the receiver's bound
constructor (so it inherits the receiver's prototype). -/
def Hex.add (a b : Hex) (fresh : Nat) : Hex :=
  (Hex.construct a.proto (.numV (jsAdd a.x b.x)) (some (jsAdd a.y b.y))
    .emptyO fresh).1

/-- Modelled from the spec: `subtract(other)` (`subtractFactory` in
`src/hex/prototype.js`, not among the sources) — component-wise
cube-coordinate subtraction, the result constructed via the receiver's bound
constructor. -/
def Hex.subtract (a b : Hex) (fresh : Nat) : Hex :=
  (Hex.construct a.proto (.numV (jsSub a.x b.x)) (some (jsSub a.y b.y))
    .emptyO fresh).1

/-- Modelled from the spec: `lerp(other, t)` (`lerpFactory` in
`src/hex/prototype.js`, not among the sources) — linear interpolation of each
cube coordinate between the receiver and `other` at parameter `t`, without
rounding, the result constructed via the receiver's bound constructor. -/
def Hex.lerp (a b : Hex) (t : ℚ) (fresh : Nat) : Hex :=
  (Hex.construct a.proto
    (.numV (.num (a.x.toQ + (b.x.toQ - a.x.toQ) * t)))
    (some (.num (a.y.toQ + (b.y.toQ - a.y.toQ) * t)))
    .emptyO fresh).1

/-! ### Basic lemmas about the number model -/

@[simp]
theorem toQ_unsignNegativeZero (v : JSNum) :
    (unsignNegativeZero v).toQ = v.toQ := by
  cases v <;> rfl

@[simp]
theorem unsignNegativeZero_num (q : ℚ) :
    unsignNegativeZero (.num q) = .num q := rfl

theorem unsignNegativeZero_ne_negZero (v : JSNum) :
    unsignNegativeZero v ≠ .negZero := by
  cases v <;> simp [unsignNegativeZero]

@[simp]
theorem toQ_jsAdd (a b : JSNum) : (jsAdd a b).toQ = a.toQ + b.toQ := by
  cases a <;> cases b <;> simp [jsAdd, JSNum.toQ]

@[simp]
theorem toQ_jsNeg (a : JSNum) : (jsNeg a).toQ = -a.toQ := by
  cases a with
  | num q =>
    by_cases h : q = 0 <;> simp [jsNeg, JSNum.toQ, h]
  | negZero => simp [jsNeg, JSNum.toQ]

@[simp]
theorem toQ_jsSub (a b : JSNum) : (jsSub a b).toQ = a.toQ - b.toQ := by
  simp [jsSub, sub_eq_add_neg]

@[simp]
theorem toQ_thirdCoordinate (x y : JSNum) :
    (thirdCoordinate x y).toQ = -(x.toQ + y.toQ) := by
  simp [thirdCoordinate]

theorem thirdCoordinate_num (a b : ℚ) :
    thirdCoordinate (.num a) (.num b) = .num (-(a + b)) := by
  by_cases h : a + b = 0 <;>
    simp [thirdCoordinate, jsAdd, jsNeg, unsignNegativeZero, h]

theorem thirdCoordinate_ne_negZero (x y : JSNum) :
    thirdCoordinate x y ≠ .negZero :=
  unsignNegativeZero_ne_negZero _

/-- The derived third coordinate always closes the sum to zero. -/
theorem Hex.z_toQ (h : Hex) : h.z.toQ = -(h.x.toQ + h.y.toQ) := by
  simp [Hex.z]

/-! ### Unfolding lemmas for the constructor -/

theorem inferXY_ne_negZero (x0 y0 : Option JSNum) :
    (inferXY x0 y0).1 ≠ .negZero ∧ (inferXY x0 y0).2 ≠ .negZero := by
  cases x0 <;> cases y0 <;>
    simp [inferXY, unsignNegativeZero_ne_negZero]

theorem construct_numV_fields (proto : Props) (u v : JSNum) (cp : CProps)
    (fresh : Nat) :
    (Hex.construct proto (.numV u) (some v) cp fresh).1 =
      { id := fresh, proto := proto, x := unsignNegativeZero u,
        y := unsignNegativeZero v, props := cp.propsOf } := rfl

theorem construct_numV_coords (proto : Props) (u v : JSNum) (cp : CProps)
    (fresh : Nat) :
    (Hex.construct proto (.numV u) (some v) cp fresh).1.coords =
      (u.toQ, v.toQ, -(u.toQ + v.toQ)) := by
  simp [construct_numV_fields, Hex.coords, Hex.z]

/-! ### The claims -/

/-- Claim C1: every hex produced by any construction path of the bound
constructor — no arguments, one or two positional numbers (a third positional
value lands in `customProps`), a coordinate array, a coordinate-bearing
object, or an existing hex — has coordinates with `x + y + z = 0`. -/
theorem hex_construct_cube_invariant (proto : Props) (arg : HexArg)
    (y : Option JSNum) (cp : CProps) (fresh : Nat) :
    ((Hex.construct proto arg y cp fresh).1.x).toQ
      + ((Hex.construct proto arg y cp fresh).1.y).toQ
      + ((Hex.construct proto arg y cp fresh).1.z).toQ = 0 := by
  rw [Hex.z_toQ]; ring

/-- Claim C2: three positional numeric arguments raise no error — the
constructor is a total function on this input shape — and the third value is
never consulted: for any `k`, `Hex(n, m, k)` has `x = n`, `y = m` and the
re-derived `z = -(n + m)`. -/
theorem hex_construct_three_positional (proto : Props) (n m k : ℚ)
    (fresh : Nat) :
    (Hex.construct proto (.numV (.num n)) (some (.num m)) (.numP (.num k))
        fresh).1.x = .num n
    ∧ (Hex.construct proto (.numV (.num n)) (some (.num m)) (.numP (.num k))
        fresh).1.y = .num m
    ∧ (Hex.construct proto (.numV (.num n)) (some (.num m)) (.numP (.num k))
        fresh).1.z = .num (-(n + m)) := by
  refine ⟨rfl, rfl, ?_⟩
  simp [construct_numV_fields, Hex.z, thirdCoordinate_num]

/-- Claim C3: coordinate inference — two numbers are kept as-is; with exactly
one number the missing coordinate copies the present one, so `Hex(n)` is
`(n, n, -2n)` and a lone `y` gives `x = y`; with no number at all (missing or
non-numeric arguments) both are zeroed, so `Hex()` is `(0, 0, 0)`. -/
theorem hex_construct_coordinate_inference (proto : Props) (n m : ℚ)
    (cp : CProps) (fresh : Nat) :
    ((Hex.construct proto (.numV (.num n)) (some (.num m)) cp fresh).1.x
        = .num n
      ∧ (Hex.construct proto (.numV (.num n)) (some (.num m)) cp fresh).1.y
        = .num m)
    ∧ ((Hex.construct proto (.numV (.num n)) none cp fresh).1.x = .num n
      ∧ (Hex.construct proto (.numV (.num n)) none cp fresh).1.y = .num n
      ∧ (Hex.construct proto (.numV (.num n)) none cp fresh).1.z
        = .num (-(2 * n)))
    ∧ ((Hex.construct proto .undef (some (.num m)) cp fresh).1.x = .num m
      ∧ (Hex.construct proto .undef (some (.num m)) cp fresh).1.y = .num m)
    ∧ ((Hex.construct proto .undef none cp fresh).1.x = .num 0
      ∧ (Hex.construct proto .undef none cp fresh).1.y = .num 0
      ∧ (Hex.construct proto .undef none cp fresh).1.z = .num 0) := by
  refine ⟨⟨rfl, rfl⟩, ⟨rfl, rfl, ?_⟩, ⟨rfl, rfl⟩, rfl, rfl, ?_⟩
  · show thirdCoordinate (.num n) (.num n) = .num (-(2 * n))
    rw [thirdCoordinate_num]; ring_nf
  · show thirdCoordinate (.num 0) (.num 0) = .num 0
    rw [thirdCoordinate_num]; norm_num

/-- Claim C4: object input — the produced hex is entirely independent of any
explicit third coordinate on the object (it is always re-derived); the
object's other fields are merged into the result as its custom properties;
the extracted numeric `x`, `y` become the result's coordinates with
`z = -(x + y)`; and an explicit `x` on the object is overwritten in the
result by the final computed value (here: an original `-0` appears in the
result as the normalized `0`, not as the original field value). -/
theorem hex_construct_object_input (proto : Props) (i : Nat) (n m : ℚ)
    (z0 : Option JSNum) (ps : Props) (y : Option JSNum) (cp : CProps)
    (fresh : Nat) :
    (∀ (o : JSObj) (v : Option JSNum),
      (Hex.construct proto (.objV { o with z := v }) y cp fresh).1
        = (Hex.construct proto (.objV o) y cp fresh).1)
    ∧ (Hex.construct proto
        (.objV ⟨i, some (.num n), some (.num m), z0, ps⟩) y cp fresh).1.props
      = ps
    ∧ (Hex.construct proto
        (.objV ⟨i, some (.num n), some (.num m), z0, ps⟩) y cp fresh).1.x
      = .num n
    ∧ (Hex.construct proto
        (.objV ⟨i, some (.num n), some (.num m), z0, ps⟩) y cp fresh).1.y
      = .num m
    ∧ (Hex.construct proto
        (.objV ⟨i, some (.num n), some (.num m), z0, ps⟩) y cp fresh).1.z
      = .num (-(n + m))
    ∧ (Hex.construct proto
        (.objV ⟨i, some .negZero, some (.num m), z0, ps⟩) y cp fresh).1.x
      = .num 0 := by
  refine ⟨fun o v => rfl, rfl, rfl, rfl, ?_, rfl⟩
  show thirdCoordinate (.num n) (.num m) = .num (-(n + m))
  exact thirdCoordinate_num n m

/-- Claim C5: no construction path ever stores the distinguished negative
zero: for every input shape, neither stored coordinate nor the derived `z`
of the produced hex is `-0`. -/
theorem hex_construct_no_negative_zero (proto : Props) (arg : HexArg)
    (y : Option JSNum) (cp : CProps) (fresh : Nat) :
    (Hex.construct proto arg y cp fresh).1.x ≠ .negZero
    ∧ (Hex.construct proto arg y cp fresh).1.y ≠ .negZero
    ∧ (Hex.construct proto arg y cp fresh).1.z ≠ .negZero := by
  refine ⟨?_, ?_, thirdCoordinate_ne_negZero _ _⟩ <;>
    cases arg <;>
      first
        | exact (inferXY_ne_negZero _ _).1
        | exact (inferXY_ne_negZero _ _).2

/-- Claim C6: cloning — passing an existing hex (with custom properties) back
into the bound constructor yields a hex with the same coordinate snapshot,
the same custom properties, and a distinct object identity (the clone is a
freshly allocated object, so its id differs from that of any pre-existing
hex). -/
theorem hex_clone_spec (h : Hex) (y : Option JSNum) (cp : CProps)
    (fresh : Nat) (hid : h.id < fresh) :
    (Hex.construct h.proto (.objV h.toObj) y cp fresh).1.coords = h.coords
    ∧ (Hex.construct h.proto (.objV h.toObj) y cp fresh).1.props = h.props
    ∧ (Hex.construct h.proto (.objV h.toObj) y cp fresh).1.id ≠ h.id := by
  refine ⟨?_, rfl, ?_⟩
  · show (Hex.construct h.proto (.numV h.x) (some h.y) (.objP h.toObj)
        fresh).1.coords = h.coords
    rw [construct_numV_coords, Hex.coords, Hex.z_toQ]
  · show fresh ≠ h.id
    omega

/-- Witness for C6 at a concrete hex with a custom property. -/
theorem hex_clone_spec_witness :
    (Hex.construct [("size", JSNum.num 1)]
        (.objV (Hex.toObj ⟨2, [("size", JSNum.num 1)], JSNum.num 4,
          JSNum.num (-2), [("custom", JSNum.num 7)]⟩)) none .emptyO 9).1.coords
      = Hex.coords ⟨2, [("size", JSNum.num 1)], JSNum.num 4, JSNum.num (-2),
          [("custom", JSNum.num 7)]⟩
    ∧ (Hex.construct [("size", JSNum.num 1)]
        (.objV (Hex.toObj ⟨2, [("size", JSNum.num 1)], JSNum.num 4,
          JSNum.num (-2), [("custom", JSNum.num 7)]⟩)) none .emptyO 9).1.props
      = [("custom", JSNum.num 7)]
    ∧ (Hex.construct [("size", JSNum.num 1)]
        (.objV (Hex.toObj ⟨2, [("size", JSNum.num 1)], JSNum.num 4,
          JSNum.num (-2), [("custom", JSNum.num 7)]⟩)) none .emptyO 9).1.id
      ≠ 2 :=
  hex_clone_spec
    ⟨2, [("size", JSNum.num 1)], JSNum.num 4, JSNum.num (-2),
      [("custom", JSNum.num 7)]⟩ none .emptyO 9 (by decide)

/-- Claim C10: frame effect on the argument — when the constructor receives a
coordinate-bearing object, that object itself is mutated: its `x` and `y`
fields end up overwritten with the computed, negative-zero-normalized
coordinate values (exactly the coordinates stored in the produced hex), while
its identity, its explicit `z` field and its other properties are left as
they were. -/
theorem hex_construct_mutates_object_argument (proto : Props) (o : JSObj)
    (y : Option JSNum) (cp : CProps) (fresh : Nat) :
    (Hex.construct proto (.objV o) y cp fresh).2
      = .objP { o with
          x := some (Hex.construct proto (.objV o) y cp fresh).1.x,
          y := some (Hex.construct proto (.objV o) y cp fresh).1.y } := rfl

/-! ### Rounding lemmas -/

theorem floor_one_half : ⌊(1 : ℚ) / 2⌋ = 0 := by
  rw [Int.floor_eq_zero_iff, Set.mem_Ico]
  norm_num

theorem roundHalfUp_intCast (n : ℤ) : roundHalfUp (n : ℚ) = n := by
  rw [roundHalfUp, add_comm, Int.floor_add_int, floor_one_half, zero_add]

theorem cubeRound_intCast (a b c : ℤ) :
    cubeRound (a : ℚ) (b : ℚ) (c : ℚ) = (a, b) := by
  simp [cubeRound, roundHalfUp_intCast]

theorem round_fields (h : Hex) (f : Nat) :
    (h.round f).x = .num ((cubeRound h.x.toQ h.y.toQ h.z.toQ).1 : ℚ)
    ∧ (h.round f).y = .num ((cubeRound h.x.toQ h.y.toQ h.z.toQ).2 : ℚ) :=
  ⟨rfl, rfl⟩

theorem round_coords (h : Hex) (f : Nat) :
    (h.round f).coords =
      (((cubeRound h.x.toQ h.y.toQ h.z.toQ).1 : ℚ),
        ((cubeRound h.x.toQ h.y.toQ h.z.toQ).2 : ℚ),
        -(((cubeRound h.x.toQ h.y.toQ h.z.toQ).1 : ℚ)
          + ((cubeRound h.x.toQ h.y.toQ h.z.toQ).2 : ℚ))) := by
  rw [Hex.coords, Hex.z_toQ, (round_fields h f).1, (round_fields h f).2]
  simp [JSNum.toQ]

/-- Claim C7: `round()` always produces all-integer coordinates summing to
zero exactly (even from fractional coordinates), and it is idempotent on the
coordinate snapshot: rounding a rounded hex changes nothing. -/
theorem hex_round_idempotent_integral (h : Hex) (f1 f2 : Nat) :
    (∃ a b c : ℤ, (h.round f1).coords = ((a : ℚ), (b : ℚ), (c : ℚ))
      ∧ a + b + c = 0)
    ∧ ((h.round f1).round f2).coords = (h.round f1).coords := by
  constructor
  · refine ⟨(cubeRound h.x.toQ h.y.toQ h.z.toQ).1,
      (cubeRound h.x.toQ h.y.toQ h.z.toQ).2,
      -((cubeRound h.x.toQ h.y.toQ h.z.toQ).1
        + (cubeRound h.x.toQ h.y.toQ h.z.toQ).2), ?_, by ring⟩
    rw [round_coords]
    push_cast
    rfl
  · have hx : (h.round f1).x.toQ
        = ((cubeRound h.x.toQ h.y.toQ h.z.toQ).1 : ℚ) := by
      rw [(round_fields h f1).1]
      rfl
    have hy : (h.round f1).y.toQ
        = ((cubeRound h.x.toQ h.y.toQ h.z.toQ).2 : ℚ) := by
      rw [(round_fields h f1).2]
      rfl
    have hz : (h.round f1).z.toQ
        = ((-((cubeRound h.x.toQ h.y.toQ h.z.toQ).1
            + (cubeRound h.x.toQ h.y.toQ h.z.toQ).2) : ℤ) : ℚ) := by
      rw [Hex.z_toQ, hx, hy]
      push_cast
      ring
    rw [round_coords (h.round f1) f2, round_coords h f1, hx, hy, hz,
      cubeRound_intCast]

/-- Claim C8: `add` then `subtract` of the same hex recovers the receiver's
coordinate snapshot exactly, and both `add` and `subtract` build their result
through the receiver's bound constructor, so the result carries the
receiver's prototype (with its factory-level custom properties), not the
argument's. -/
theorem hex_add_subtract_roundtrip (a b : Hex) (f1 f2 f3 : Nat) :
    ((a.add b f1).subtract b f2).coords = a.coords
    ∧ (a.add b f1).proto = a.proto
    ∧ (a.subtract b f3).proto = a.proto := by
  refine ⟨?_, rfl, rfl⟩
  have hx : (a.add b f1).x.toQ = a.x.toQ + b.x.toQ := by
    rw [Hex.add, construct_numV_fields]
    simp
  have hy : (a.add b f1).y.toQ = a.y.toQ + b.y.toQ := by
    rw [Hex.add, construct_numV_fields]
    simp
  rw [Hex.subtract, construct_numV_coords, Hex.coords, Hex.z_toQ]
  simp [hx, hy]

/-- Claim C9: `lerp` at parameter `0` yields the receiver's coordinates and
at parameter `1` yields the other hex's coordinates, on all three cube
coordinates. -/
theorem hex_lerp_endpoints (a b : Hex) (f1 f2 : Nat) :
    (a.lerp b 0 f1).coords = a.coords
    ∧ (a.lerp b 1 f2).coords = b.coords := by
  refine ⟨?_, ?_⟩ <;>
    · rw [Hex.lerp, construct_numV_coords, Hex.coords, Hex.z_toQ]
      simp only [JSNum.toQ, Prod.mk.injEq]
      refine ⟨by ring, by ring, by ring⟩

end Honeycomb
